import Mathlib

/-!
Verification of the Go RAG bot (`go-Rag-Based-bot`) against its
natural-language specification.

The repository's core components are shallowly embedded here:
- Go strings handled as byte sequences are `List Nat` (each element a byte);
  Go strings handled only by concatenation are Lean `String`s.
- Embedding vectors (`[]float32`) are `List Int`: every claim treats them as
  opaque values, so their numeric type is irrelevant.
- Similarity scores (`float32`, only ever observed through `%.2f` rendering)
  are modelled as exact hundredths (`Int`), with a two-decimal renderer.
- HTTP effects are explicit: an outcome is a transport failure or a status
  code, and the external store is a tiny explicit state where needed.
- Fallible Go functions returning `(T, error)` become `Except`.
-/

/-! ### Byte-level string model and FNV-1a (internal/vector/client.go) -/

/-- Go `[]byte`: a list of byte values. -/
abbrev Bytes := List Nat

/-- FNV-1a 64-bit offset basis (0xcbf29ce484222325), from Go `hash/fnv`. -/
def fnv64Offset : Nat := 14695981039346656037

/-- FNV-1a 64-bit prime (0x100000001b3), from Go `hash/fnv`. -/
def fnv64Prime : Nat := 1099511628211

/-- One step of FNV-1a: xor in the byte, multiply by the prime, mod 2^64. -/
def fnv1a64Step (h b : Nat) : Nat := ((h ^^^ b) * fnv64Prime) % (2 ^ 64)

/-- `stringToNumericID` from `internal/vector/client.go`: feed the bytes of the
string into an FNV-1a 64-bit hash (`h.Write([]byte(s))`) and take `Sum64`. -/
def stringToNumericID (s : Bytes) : Nat := s.foldl fnv1a64Step fnv64Offset

/-- Reference FNV-1a 64: plain recursion over the byte sequence, written from
the FNV-1a definition ("for each byte: hash = (hash xor byte) * prime"). -/
def fnv1a64From (h : Nat) : Bytes → Nat
  | [] => h
  | b :: rest => fnv1a64From (((h ^^^ b) * fnv64Prime) % (2 ^ 64)) rest

/-! ### Embedder (internal/llm — `Embedder`) -/

/-- Embedding vectors; claims never inspect components, only identity/order. -/
abbrev Vec := List Int

/-- The truncation at the top of `Embedder.embedSingle`:
`if len(text) > 8000 { text = text[:8000] }` — Go `len` counts BYTES. -/
def truncateForEmbed (text : Bytes) : Bytes :=
  if text.length > 8000 then text.take 8000 else text

/-- Number of UTF-8 encoded characters in a byte sequence: count the bytes
that are not continuation bytes (a continuation byte is `10xxxxxx`, i.e. in
`[128, 192)`). Used to state the spec's "8000 characters" reading. -/
def utf8CharCount : Bytes → Nat
  | [] => 0
  | b :: rest => (if b < 128 ∨ 192 ≤ b then 1 else 0) + utf8CharCount rest

/-- `Embedder.Embed`'s loop: embed each text with `embedSingle`, in order;
the first failure at index `i` aborts with that index (Go wraps the error as
`"embed text %d"`), returning no partial results. `i0` is the loop index. -/
def embedLoop (single : String → Except ε Vec) (i0 : Nat) :
    List String → Except (Nat × ε) (List Vec)
  | [] => .ok []
  | t :: ts =>
    match single t with
    | .error e => .error (i0, e)
    | .ok v =>
      match embedLoop single (i0 + 1) ts with
      | .error e => .error e
      | .ok vs => .ok (v :: vs)

/-- `Embedder.Embed` from the Go source: the loop started at index 0. -/
def Embed (single : String → Except ε Vec) (texts : List String) :
    Except (Nat × ε) (List Vec) :=
  embedLoop single 0 texts

/-! ### Payloads and points (internal/vector/client.go, ingest) -/

/-- A JSON-ish payload value: the ingestion payload stores strings and lists
of strings; `num` covers raw numeric ids coming back from the store. -/
inductive PValue where
  | str (s : String)
  | strList (l : List String)
  | num (n : Nat)
  deriving DecidableEq, Repr

/-- Go `map[string]interface{}` payloads, as association lists (all payloads
built by this program have distinct keys). -/
abbrev Payload := List (String × PValue)

/-- Go's checked type assertion `p[k].(string)`: `some s` exactly when key `k`
is present with a string value. -/
def Payload.getStr (p : Payload) (k : String) : Option String :=
  match p.lookup k with
  | some (.str s) => some s
  | _ => none

/-- `vector.Point`: application string id, vector, payload. -/
structure Point where
  id : String
  vector : Vec
  payload : Payload
  deriving Repr

/-- `vector.SearchResult`: recovered id, score (hundredths), payload. -/
structure SearchResult where
  id : String
  score : Int
  payload : Payload
  deriving Repr

/-! ### Knowledge entries and ingestion (unnamed ingest service file) -/

/-- `ingest.KnowledgeEntry`, one record of Knowledgebase.json. -/
structure KnowledgeEntry where
  id : String
  module : String
  topic : String
  roles : List String
  query_variations : List String
  answer : String
  deriving Repr

/-- `Service.entryToText`: the builder writes, in order, "Module: ", the
module, "\nTopic: ", the topic, "\nQuestions: ", the query variations joined
with "; ", "\nAnswer: ", the answer. -/
def entryToText (e : KnowledgeEntry) : String :=
  "Module: " ++ e.module ++ "\nTopic: " ++ e.topic
    ++ "\nQuestions: " ++ String.intercalate "; " e.query_variations
    ++ "\nAnswer: " ++ e.answer

/-- The payload `processBatch` builds for one entry (with its derived text). -/
def entryPayload (e : KnowledgeEntry) (text : String) : Payload :=
  [("id", .str e.id), ("module", .str e.module), ("topic", .str e.topic),
   ("roles", .strList e.roles), ("query_variations", .strList e.query_variations),
   ("answer", .str e.answer), ("text", .str text)]

/-- `Service.processBatch`: derive texts, embed them in one `Embed` call,
zip entries with embeddings into Points; on success the returned list is the
contents of the batch's single `UpsertPoints` call. -/
def processBatch (single : String → Except ε Vec) (entries : List KnowledgeEntry) :
    Except (Nat × ε) (List Point) :=
  match Embed single (entries.map entryToText) with
  | .error e => .error e
  | .ok embeddings =>
    .ok (entries.zipWith
      (fun e v => { id := e.id, vector := v, payload := entryPayload e (entryToText e) })
      embeddings)

/-- The batching loop of `Service.IngestJSONFile`: slice `entries[i:i+10]`
(clamped at the end), advance by 10. -/
def chunkBatches : List α → List (List α)
  | [] => []
  | a :: rest => ((a :: rest).take 10) :: chunkBatches ((a :: rest).drop 10)
termination_by l => l.length
decreasing_by simp [List.length_drop]; omega

/-- `IngestJSONFile`'s loop run against a per-batch effect `pb` (modelling
`processBatch`, whose result is that batch's single upsert call): batches are
processed strictly in order; the first failing batch aborts the run with its
batch index `bi` (Go `i/batchSize` in `"process batch %d"`). Returns the
results of the completed batch calls and the reported failure, if any. -/
def ingestRun (pb : Nat → List α → Except ε β) (bi : Nat) :
    List α → List β × Option (Nat × ε)
  | [] => ([], none)
  | a :: rest =>
    match pb bi ((a :: rest).take 10) with
    | .error e => ([], some (bi, e))
    | .ok y =>
      let r := ingestRun pb (bi + 1) ((a :: rest).drop 10)
      (y :: r.1, r.2)
termination_by l => l.length
decreasing_by simp [List.length_drop]; omega

/-- The same loop, structurally on an already-chunked list (proof device to
relate `ingestRun` to `chunkBatches`). -/
def chunkLoop (pb : Nat → List α → Except ε β) (bi : Nat) :
    List (List α) → List β × Option (Nat × ε)
  | [] => ([], none)
  | b :: bs =>
    match pb bi b with
    | .error e => ([], some (bi, e))
    | .ok y =>
      let r := chunkLoop pb (bi + 1) bs
      (y :: r.1, r.2)

/-! ### VectorStore provisioning (internal/vector/client.go) -/

/-- Outcome of one HTTP call: transport failure, or a response status code. -/
inductive HttpOutcome where
  | transportErr
  | status (code : Nat)
  deriving DecidableEq, Repr

/-- The body of the collection-create request (`{vectors:{size, distance}}`). -/
structure CreateReq where
  size : Nat
  distance : String
  deriving DecidableEq, Repr

/-- `createCollection` builds its request from the configured vector size with
the fixed "Cosine" distance. -/
def mkCreateReq (vectorSize : Nat) : CreateReq :=
  { size := vectorSize, distance := "Cosine" }

/-- `Client.createCollection`, abstracted over the PUT outcome: 200 OK and
409 Conflict (already exists) are success; anything else is an error. -/
def createCollection : HttpOutcome → Except String Unit
  | .transportErr => .error "create collection: transport"
  | .status c =>
    if c = 200 ∨ c = 409 then .ok () else .error "create collection failed"

/-- `Client.EnsureCollection`, abstracted over the check (GET) and create
(PUT) outcomes: 200 → done; 404 → create; any other status → also create
(the defensive path); transport failure on the check is an error. -/
def ensureCollection (check create : HttpOutcome) : Except String Unit :=
  match check with
  | .transportErr => .error "check collection: transport"
  | .status c => if c = 200 then .ok () else createCollection create

/-- A minimal store model for idempotence: the state is whether the (single)
collection exists; checking reports 200 (exists) or 404, creating always
leaves it existing and reports 409 when it already existed, 200 otherwise. -/
def storeCheck (exl : Bool) : HttpOutcome := .status (if exl then 200 else 404)

/-- Store model: result of a create call and the state after it. -/
def storeCreate (exl : Bool) : HttpOutcome × Bool :=
  (.status (if exl then 409 else 200), true)

/-- `EnsureCollection` run against the store model: the create call is issued
only on the non-200 paths, and the state records whether a collection exists
afterwards. -/
def ensureRun (exl : Bool) : Except String Unit × Bool :=
  match storeCheck exl with
  | .transportErr => (.error "check collection: transport", exl)
  | .status c =>
    if c = 200 then (.ok (), exl)
    else (createCollection (storeCreate exl).1, (storeCreate exl).2)

/-! ### Search-result recovery and the query pipeline (rag/service.go) -/

/-- `Client.Search`'s per-hit construction: the recovered id prefers the
payload's string `"id"`, falling back to the raw numeric id rendered as a
string (`fmt.Sprintf("%v", r.ID)`, given here as `rawId`). -/
def mkSearchResult (rawId : String) (score : Int) (payload : Payload) : SearchResult :=
  { id := match payload.getStr "id" with
          | some s => s
          | none => rawId,
    score := score, payload := payload }

/-- `rag.Source`: one entry of a QueryResult's sources list. -/
structure Source where
  id : String
  module : String
  topic : String
  score : Int
  deriving DecidableEq, Repr

/-- `rag.QueryResult`: answer text plus ordered sources. -/
structure QueryResult where
  answer : String
  sources : List Source
  deriving DecidableEq, Repr

/-- The per-result source construction in `Service.Query` step 6: each field
is the payload's string value under the matching key, with Go's unchecked
type-assertion zero value `""` when absent or non-string. Reads only the
payload, never `SearchResult.id`. -/
def sourceOfResult (r : SearchResult) : Source :=
  { id := (r.payload.getStr "id").getD "",
    module := (r.payload.getStr "module").getD "",
    topic := (r.payload.getStr "topic").getD "",
    score := r.score }

/-- The sources list `Service.Query` returns: one `Source` per retrieved
result, in retrieval order. -/
def buildSources (results : List SearchResult) : List Source :=
  results.map sourceOfResult

/-- Two-digit zero-padded rendering of a value below 100. -/
def pad2 (n : Nat) : String := if n < 10 then "0" ++ toString n else toString n

/-- Go `%.2f` on a score modelled as exact hundredths. -/
def fmtScore (s : Int) : String :=
  (if s < 0 then "-" else "") ++ toString (s.natAbs / 100) ++ "." ++ pad2 (s.natAbs % 100)

/-- The section label `buildContext` writes for the `i`-th document. -/
def docHeader (i : Nat) (score : Int) : String :=
  "--- Document " ++ toString i ++ " (score: " ++ fmtScore score ++ ") ---\n"

/-- The full contribution of rank-`i` result `r` to the context block: the
label, the stored text, and a blank line — or nothing when the payload has no
string `"text"`. (Spec-shaped helper for characterising `buildContext`.) -/
def docSection (i : Nat) (r : SearchResult) : Option String :=
  (r.payload.getStr "text").map
    (fun text => docHeader (i + 1) r.score ++ text ++ "\n\n")

/-- `Service.buildContext`'s loop body, carrying the range index `i` (which
counts every result, skipped or not): results whose payload has a string
`"text"` contribute a labelled section; the rest are skipped. -/
def buildContextAux : Nat → List SearchResult → String
  | _, [] => ""
  | i, r :: rest =>
    match r.payload.getStr "text" with
    | none => buildContextAux (i + 1) rest
    | some text =>
      docHeader (i + 1) r.score ++ text ++ "\n\n" ++ buildContextAux (i + 1) rest

/-- `Service.buildContext` from rag/service.go. -/
def buildContext (results : List SearchResult) : String := buildContextAux 0 results

/-- `llm.Message`: one prompt turn. -/
structure Message where
  role : String
  content : String
  deriving DecidableEq, Repr

/-- One choice of a non-streaming chat response. -/
structure ChatChoice where
  message : Message
  finishReason : String
  deriving DecidableEq, Repr

/-- `llm.ChatResponse` (the fields the pipeline reads). -/
structure ChatResponse where
  choices : List ChatChoice
  deriving DecidableEq, Repr

/-- The fixed system instruction both `Query` and `StreamQuery` send (the raw
string literal in rag/service.go, transcribed line by line). -/
def systemPrompt : String := String.intercalate "\n"
  ["You are the official Support Assistant for SyntraFlow - a comprehensive employee management system.",
   "",
   "## About SyntraFlow:",
   "SyntraFlow is an all-in-one Employee Management System (EMS) designed to streamline HR operations for organizations of all sizes. Key features include:",
   "- **Authentication & Access Control**: Secure sign-in, sign-up, password management, and role-based permissions",
   "- **Employee Management**: Complete employee lifecycle management including onboarding, profiles, and document handling",
   "- **Attendance & Rota Management**: Shift scheduling, clock in/out tracking, terminals, and live attendance monitoring",
   "- **Leave Management**: Leave requests, approvals, balances, WFH requests, and policy configuration",
   "- **Payroll & Salary**: Salary elements, payroll processing, and payslip generation",
   "- **Dashboard**: Real-time performance metrics, attendance insights, meetings, and company events",
   "- **Calendar**: Meeting scheduling, time insights, and team availability",
   "- **Policy Manager**: Configure leave policies, shift policies, WFH rules, and compensation structures",
   "- **Reports**: Time & attendance reports, lateness tracking, and live tracking",
   "",
   "## Your Role:",
   "- You are the primary support resource for SyntraFlow users",
   "- Help employees and administrators navigate the platform",
   "- Provide clear, step-by-step guidance for all features",
   "",
   "## Guidelines:",
   "1. For questions about what SyntraFlow is, use the About SyntraFlow section above",
   "2. For specific feature questions, use the provided context from the knowledge base",
   "3. Be concise but thorough - include all necessary steps",
   "4. Use numbered lists for step-by-step instructions",
   "5. If the context doesn\x27t have specific details, say so politely and offer to help with something else",
   "6. Never make up features or steps",
   "7. Be professional, friendly, and helpful",
   "",
   "## Response Format:",
   "- Start with a direct answer",
   "- Follow with step-by-step instructions if applicable",
   "- End with a helpful tip if relevant"]

/-- The user message of the fixed two-message prompt:
`fmt.Sprintf("Context from SyntraFlow Knowledge Base:\n%s\n\nUser Question: %s", ctx, q)`. -/
def userPrompt (ctx q : String) : String :=
  "Context from SyntraFlow Knowledge Base:\n" ++ ctx ++ "\n\nUser Question: " ++ q

/-- The exactly-two-message prompt `Service.Query`/`StreamQuery` construct. -/
def queryMessages (ctx q : String) : List Message :=
  [{ role := "system", content := systemPrompt },
   { role := "user", content := userPrompt ctx q }]

/-- `Service.Query`, with its three external calls passed explicitly: embed
the query, search, build the context, invoke the generator on the fixed
two-message prompt, reject a zero-choice response, and package the first
choice's text with one source per retrieved result. Go's error wrapping
(`fmt.Errorf("embed query: %w", ...)` etc.) becomes prefix concatenation. -/
def runQuery (embed : String → Except String Vec)
    (search : Vec → Except String (List SearchResult))
    (llm : List Message → Except String ChatResponse)
    (q : String) : Except String QueryResult :=
  match embed q with
  | .error e => .error ("embed query: " ++ e)
  | .ok qe =>
    match search qe with
    | .error e => .error ("search: " ++ e)
    | .ok results =>
      match llm (queryMessages (buildContext results) q) with
      | .error e => .error ("llm completion: " ++ e)
      | .ok resp =>
        match resp.choices with
        | [] => .error "no response from LLM"
        | c :: _ => .ok { answer := c.message.content, sources := buildSources results }

/-! ### Streaming generation (internal/llm — `Client.StreamChatCompletion`) -/

/-- One SSE line, as the scanner yields it (a sequence of characters). -/
abbrev Line := List Char

/-- The `"data: "` prefix each payload-bearing SSE line must carry. -/
def dataLinePrefix : Line := ['d', 'a', 't', 'a', ':', ' ']

/-- The `"[DONE]"` sentinel that terminates the stream. -/
def doneSentinel : Line := ['[', 'D', 'O', 'N', 'E', ']']

/-- One choice of a streaming chunk: the delta's content fragment and the
finish reason. -/
structure DeltaChoice where
  content : String
  finishReason : String
  deriving DecidableEq, Repr

/-- `llm.StreamDelta` (the fields the loop reads). -/
structure StreamDelta where
  choices : List DeltaChoice
  deriving DecidableEq, Repr

/-- What one parsed chunk writes to the sink: each choice's delta content, in
order, skipping empty fragments (`if choice.Delta.Content != ""`). -/
def chunkWrites (d : StreamDelta) : String :=
  d.choices.foldl (fun acc c => if c.content ≠ "" then acc ++ c.content else acc) ""

/-- The scanner loop of `StreamChatCompletion`, abstracted over JSON parsing
(`parse line = none` models a `json.Unmarshal` failure): lines without the
`"data: "` prefix are skipped; `"[DONE]"` stops the loop; unparseable data
lines are skipped; otherwise the chunk's fragments are written in arrival
order. The result is everything written to the sink. -/
def streamLoop (parse : Line → Option StreamDelta) : List Line → String
  | [] => ""
  | line :: rest =>
    if dataLinePrefix.isPrefixOf line then
      if line.drop 6 = doneSentinel then ""
      else
        match parse (line.drop 6) with
        | none => streamLoop parse rest
        | some d => chunkWrites d ++ streamLoop parse rest
    else streamLoop parse rest

/-! ### Helper lemmas -/

theorem foldl_fnv_eq_fnv1a64From (s : Bytes) :
    ∀ h : Nat, s.foldl fnv1a64Step h = fnv1a64From h s := by
  induction s with
  | nil => intro h; rfl
  | cons b rest ih =>
    intro h
    simp only [List.foldl_cons, fnv1a64From, fnv1a64Step]
    exact ih _

theorem fnv1a64From_lt (s : Bytes) :
    ∀ h : Nat, h < 2 ^ 64 → fnv1a64From h s < 2 ^ 64 := by
  induction s with
  | nil => intro h hh; exact hh
  | cons b rest ih =>
    intro h _
    exact ih _ (Nat.mod_lt _ (by norm_num))

/-! ### C1 -/

/-- C1: `stringToNumericID` is a pure, deterministic function of the bytes of
its argument: it equals the FNV-1a 64-bit hash of those bytes (the reference
recursion `fnv1a64From` starting from the FNV offset basis), and its value is
a 64-bit unsigned integer. No state enters the computation. -/
theorem c1_stringToNumericID_is_fnv1a64 (s : Bytes) :
    stringToNumericID s = fnv1a64From fnv64Offset s
    ∧ stringToNumericID s < 2 ^ 64 := by
  constructor
  · exact foldl_fnv_eq_fnv1a64From s fnv64Offset
  · rw [stringToNumericID, foldl_fnv_eq_fnv1a64From s fnv64Offset]
    exact fnv1a64From_lt s fnv64Offset (by norm_num [fnv64Offset])

/-! ### C6 -/

theorem utf8CharCount_join_twoByte (n : Nat) :
    utf8CharCount ((List.replicate n ([195, 169] : Bytes)).flatten) = n := by
  induction n with
  | zero => rfl
  | succ m ih =>
    simp only [List.replicate_succ, List.flatten_cons]
    show utf8CharCount (195 :: 169 :: (List.replicate m ([195, 169] : Bytes)).flatten) = m + 1
    simp only [utf8CharCount, ih]
    norm_num
    omega

theorem length_join_twoByte (n : Nat) :
    ((List.replicate n ([195, 169] : Bytes)).flatten).length = 2 * n := by
  induction n with
  | zero => rfl
  | succ m ih =>
    simp only [List.replicate_succ, List.flatten_cons, List.length_append, ih]
    simp; omega

/-- C6 counterexample: a text of 4001 characters (each the two-byte UTF-8
encoding of U+00E9), hence at most 8000 characters, which the claim says is
sent unchanged — yet `truncateForEmbed` alters it, because the Go code
compares and slices BYTE counts (`len(text)`, `text[:8000]`) and the text is
8002 bytes long. -/
theorem c6_counterexample :
    utf8CharCount ((List.replicate 4001 ([195, 169] : Bytes)).flatten) ≤ 8000
    ∧ truncateForEmbed ((List.replicate 4001 ([195, 169] : Bytes)).flatten)
        ≠ (List.replicate 4001 ([195, 169] : Bytes)).flatten := by
  constructor
  · rw [utf8CharCount_join_twoByte]; omega
  · intro hcontra
    have hlen : ((List.replicate 4001 ([195, 169] : Bytes)).flatten).length = 8002 :=
      length_join_twoByte 4001
    rw [truncateForEmbed, if_pos (by omega)] at hcontra
    have := congrArg List.length hcontra
    rw [List.length_take, hlen] at this
    omega

/-- C6 (amended): truncation is by BYTES, not characters: every input text
longer than 8000 bytes is deterministically truncated to exactly its first
8000 bytes before being sent to the embedding engine; texts of 8000 bytes or
fewer are sent unchanged. (For pure-ASCII text bytes and characters agree, so
the spec's "characters" reading holds there.) -/
theorem c6_truncate_at_8000_bytes (text : Bytes) :
    (text.length > 8000 →
      truncateForEmbed text = text.take 8000 ∧ (truncateForEmbed text).length = 8000)
    ∧ (text.length ≤ 8000 → truncateForEmbed text = text) := by
  constructor
  · intro hgt
    rw [truncateForEmbed, if_pos hgt]
    exact ⟨rfl, by rw [List.length_take]; omega⟩
  · intro hle
    rw [truncateForEmbed, if_neg (by omega)]

/-- Witness for the amended C6 theorem at concrete inputs: an 8001-byte text
is cut to its 8000-byte prefix; an 8000-byte text passes unchanged. -/
theorem c6_truncate_at_8000_bytes_witness :
    truncateForEmbed (List.replicate 8001 65) = (List.replicate 8001 65).take 8000
    ∧ truncateForEmbed (List.replicate 8000 65) = List.replicate 8000 65 :=
  ⟨((c6_truncate_at_8000_bytes (List.replicate 8001 65)).1 (by rw [List.length_replicate]; omega)).1,
   (c6_truncate_at_8000_bytes (List.replicate 8000 65)).2 (by rw [List.length_replicate])⟩

/-! ### C8 (helpers shared with C5 proofs live above) -/

theorem entryPayload_lookups (e : KnowledgeEntry) (t : String) :
    (entryPayload e t).getStr "id" = some e.id
    ∧ (entryPayload e t).getStr "module" = some e.module
    ∧ (entryPayload e t).getStr "topic" = some e.topic
    ∧ (entryPayload e t).lookup "roles" = some (.strList e.roles)
    ∧ (entryPayload e t).lookup "query_variations" = some (.strList e.query_variations)
    ∧ (entryPayload e t).getStr "answer" = some e.answer
    ∧ (entryPayload e t).getStr "text" = some t :=
  ⟨rfl, rfl, rfl, rfl, rfl, rfl, rfl⟩

/-! ### C5 -/

theorem embedLoop_ok_spec (single : String → Except ε Vec) :
    ∀ (ts : List String) (i0 : Nat) (vs : List Vec),
      embedLoop single i0 ts = .ok vs →
      vs.length = ts.length
      ∧ ∀ j (hj : j < ts.length) (hj' : j < vs.length),
          single (ts.get ⟨j, hj⟩) = .ok (vs.get ⟨j, hj'⟩) := by
  intro ts
  induction ts with
  | nil =>
    intro i0 vs h
    simp only [embedLoop] at h
    injection h with h
    subst h
    exact ⟨rfl, fun j hj => absurd hj (by simp)⟩
  | cons t ts ih =>
    intro i0 vs h
    simp only [embedLoop] at h
    cases hs : single t with
    | error e => rw [hs] at h; cases h
    | ok v =>
      rw [hs] at h
      cases hr : embedLoop single (i0 + 1) ts with
      | error e => rw [hr] at h; cases h
      | ok vs' =>
        rw [hr] at h
        injection h with h
        subst h
        obtain ⟨hlen, hget⟩ := ih (i0 + 1) vs' hr
        refine ⟨by simp [hlen], ?_⟩
        intro j hj hj'
        cases j with
        | zero => simpa using hs
        | succ k =>
          have hk : k < ts.length := by simpa using hj
          have hk' : k < vs'.length := by simpa using hj'
          simpa using hget k hk hk'

theorem embedLoop_first_failure (single : String → Except ε Vec) :
    ∀ (ts : List String) (i0 j : Nat) (e : ε) (hj : j < ts.length),
      (∀ k (hk : k < j), ∃ v, single (ts.get ⟨k, by omega⟩) = .ok v) →
      single (ts.get ⟨j, hj⟩) = .error e →
      embedLoop single i0 ts = .error (i0 + j, e) := by
  intro ts
  induction ts with
  | nil => intro i0 j e hj; exact absurd hj (by simp)
  | cons t ts ih =>
    intro i0 j e hj hpre hfail
    cases j with
    | zero =>
      simp only [List.get] at hfail
      simp only [embedLoop, hfail, Nat.add_zero]
    | succ k =>
      obtain ⟨v, hv⟩ := hpre 0 (Nat.succ_pos k)
      simp only [List.get] at hv hfail
      simp only [embedLoop, hv]
      have hk : k < ts.length := by simpa using hj
      have hrec := ih (i0 + 1) k e hk
        (fun m hm => by simpa using hpre (m + 1) (by omega)) hfail
      rw [hrec]
      have : i0 + 1 + k = i0 + (k + 1) := by omega
      rw [this]

/-- C5: batch embedding returns, on success, exactly one vector per input
text, with output position `j` the result of the single-text call on input
`j` (order preserved); and if the inputs up to some index `j` succeed but
input `j` fails, the whole `Embed` call returns the error for index `j` —
no partial list of embeddings is ever returned. -/
theorem c5_embed_order_and_abort (single : String → Except ε Vec) (texts : List String) :
    (∀ vs, Embed single texts = .ok vs →
      vs.length = texts.length
      ∧ ∀ j (hj : j < texts.length) (hj' : j < vs.length),
          single (texts.get ⟨j, hj⟩) = .ok (vs.get ⟨j, hj'⟩))
    ∧ (∀ j e (hj : j < texts.length),
        (∀ k (hk : k < j), ∃ v, single (texts.get ⟨k, by omega⟩) = .ok v) →
        single (texts.get ⟨j, hj⟩) = .error e →
        Embed single texts = .error (j, e)) := by
  constructor
  · intro vs h
    exact embedLoop_ok_spec single texts 0 vs h
  · intro j e hj hpre hfail
    have h := embedLoop_first_failure single texts 0 j e hj hpre hfail
    rwa [Nat.zero_add] at h

/-- Witness for C5 at a concrete batch: with an embedder that fails exactly
on the text "bad", the batch ["a", "b"] embeds to one vector per text in
order, and the batch ["a", "bad", "c"] aborts whole with the error at
index 1. -/
theorem c5_embed_order_and_abort_witness :
    Embed (fun t => if t = "bad" then .error "boom" else .ok [1]) ["a", "bad", "c"]
      = .error (1, "boom") :=
  (c5_embed_order_and_abort (fun t => if t = "bad" then .error "boom" else .ok [1])
      ["a", "bad", "c"]).2 1 "boom" (by simp)
    (fun k hk => ⟨[1], by
      have hk0 : k = 0 := by omega
      subst hk0
      simp⟩)
    (by simp)

/-- C8: when a batch is processed successfully, there is one point per entry,
in order; the point for entry `j` keeps the entry's string id, its vector is
the embedding of the entry's derived text, and its payload carries every
original structured field (id, module, topic, roles, query_variations,
answer) plus the derived text, which is exactly
"Module: <module>\nTopic: <topic>\nQuestions: <joined variations>\nAnswer: <answer>". -/
theorem c8_points_carry_fields (single : String → Except ε Vec)
    (entries : List KnowledgeEntry) (pts : List Point)
    (h : processBatch single entries = .ok pts) :
    pts.length = entries.length
    ∧ ∀ j (hj : j < entries.length) (hj' : j < pts.length),
        (pts.get ⟨j, hj'⟩).id = (entries.get ⟨j, hj⟩).id
        ∧ single (entryToText (entries.get ⟨j, hj⟩)) = .ok (pts.get ⟨j, hj'⟩).vector
        ∧ (pts.get ⟨j, hj'⟩).payload
            = entryPayload (entries.get ⟨j, hj⟩) (entryToText (entries.get ⟨j, hj⟩))
        ∧ (pts.get ⟨j, hj'⟩).payload.getStr "id" = some (entries.get ⟨j, hj⟩).id
        ∧ (pts.get ⟨j, hj'⟩).payload.getStr "module" = some (entries.get ⟨j, hj⟩).module
        ∧ (pts.get ⟨j, hj'⟩).payload.getStr "topic" = some (entries.get ⟨j, hj⟩).topic
        ∧ (pts.get ⟨j, hj'⟩).payload.lookup "roles"
            = some (.strList (entries.get ⟨j, hj⟩).roles)
        ∧ (pts.get ⟨j, hj'⟩).payload.lookup "query_variations"
            = some (.strList (entries.get ⟨j, hj⟩).query_variations)
        ∧ (pts.get ⟨j, hj'⟩).payload.getStr "answer" = some (entries.get ⟨j, hj⟩).answer
        ∧ (pts.get ⟨j, hj'⟩).payload.getStr "text"
            = some (entryToText (entries.get ⟨j, hj⟩))
        ∧ entryToText (entries.get ⟨j, hj⟩)
            = "Module: " ++ (entries.get ⟨j, hj⟩).module
              ++ "\nTopic: " ++ (entries.get ⟨j, hj⟩).topic
              ++ "\nQuestions: " ++ String.intercalate "; " (entries.get ⟨j, hj⟩).query_variations
              ++ "\nAnswer: " ++ (entries.get ⟨j, hj⟩).answer := by
  rw [processBatch] at h
  cases hemb : Embed single (entries.map entryToText) with
  | error e => rw [hemb] at h; cases h
  | ok embeddings =>
    rw [hemb] at h
    injection h with h
    subst h
    obtain ⟨hlen, hget⟩ := embedLoop_ok_spec single (entries.map entryToText) 0 embeddings hemb
    rw [List.length_map] at hlen
    have hzlen : (entries.zipWith
        (fun e v => Point.mk e.id v (entryPayload e (entryToText e))) embeddings).length
        = entries.length := by
      rw [List.length_zipWith, hlen, Nat.min_self]
    refine ⟨hzlen, ?_⟩
    intro j hj hj'
    have hje : j < embeddings.length := by omega
    have hzip : (entries.zipWith
        (fun e v => Point.mk e.id v (entryPayload e (entryToText e))) embeddings).get ⟨j, hj'⟩
        = Point.mk (entries.get ⟨j, hj⟩).id (embeddings.get ⟨j, hje⟩)
            (entryPayload (entries.get ⟨j, hj⟩) (entryToText (entries.get ⟨j, hj⟩))) := by
      simp [List.getElem_zipWith]
    have hvec : single (entryToText (entries.get ⟨j, hj⟩)) = .ok (embeddings.get ⟨j, hje⟩) := by
      have hjm : j < (entries.map entryToText).length := by simpa using hj
      have := hget j hjm hje
      simpa using this
    rw [hzip]
    obtain ⟨l1, l2, l3, l4, l5, l6, l7⟩ :=
      entryPayload_lookups (entries.get ⟨j, hj⟩) (entryToText (entries.get ⟨j, hj⟩))
    exact ⟨rfl, hvec, rfl, l1, l2, l3, l4, l5, l6, l7, rfl⟩

/-- A concrete knowledge entry used by the C8 witness. -/
def entryEx : KnowledgeEntry :=
  { id := "e1", module := "Leave", topic := "Requests", roles := ["admin"],
    query_variations := ["how to request leave", "apply for leave"],
    answer := "Use the Leave tab." }

/-- The single point a successful one-entry batch produces for `entryEx`. -/
def ptsEx : List Point :=
  [{ id := "e1", vector := [0], payload := entryPayload entryEx (entryToText entryEx) }]

/-- Witness for C8: processing the one-entry batch `[entryEx]` with an
embedder that returns `[0]` yields `ptsEx`, and the instantiated theorem
gives back the stored derived text of its only point. -/
theorem c8_points_carry_fields_witness :
    (ptsEx.get ⟨0, by decide⟩).payload.getStr "text" = some (entryToText entryEx)
    ∧ (ptsEx.get ⟨0, by decide⟩).id = entryEx.id :=
  have h := c8_points_carry_fields
    ((fun _ => .ok ([0] : Vec)) : String → Except String Vec) [entryEx] ptsEx rfl
  have h0 := h.2 0 (by decide) (by decide)
  ⟨h0.2.2.2.2.2.2.2.2.2.1, h0.1⟩


/-! ### C3 -/

/-- Index-carrying map (spec shape for "one call per batch, in order"). -/
def mapWithIndex (f : Nat → α → β) : Nat → List α → List β
  | _, [] => []
  | i, a :: rest => f i a :: mapWithIndex f (i + 1) rest

theorem chunkBatches_nil : chunkBatches ([] : List α) = [] := by
  rw [chunkBatches]

theorem chunkBatches_cons (a : α) (rest : List α) :
    chunkBatches (a :: rest) = ((a :: rest).take 10) :: chunkBatches ((a :: rest).drop 10) := by
  rw [chunkBatches]

theorem ingestRun_nil (pb : Nat → List α → Except ε β) (bi : Nat) :
    ingestRun pb bi [] = ([], none) := by
  rw [ingestRun]

theorem ingestRun_cons (pb : Nat → List α → Except ε β) (bi : Nat) (a : α) (rest : List α) :
    ingestRun pb bi (a :: rest) =
      match pb bi ((a :: rest).take 10) with
      | .error e => ([], some (bi, e))
      | .ok y =>
        (y :: (ingestRun pb (bi + 1) ((a :: rest).drop 10)).1,
         (ingestRun pb (bi + 1) ((a :: rest).drop 10)).2) := by
  rw [ingestRun]

theorem chunkBatches_flatten (es : List α) : (chunkBatches es).flatten = es := by
  induction es using chunkBatches.induct with
  | case1 => rw [chunkBatches_nil]; rfl
  | case2 a rest ih =>
    rw [chunkBatches_cons]
    simp only [List.flatten_cons, ih, List.take_append_drop]

theorem chunkBatches_length (es : List α) :
    (chunkBatches es).length = (es.length + 9) / 10 := by
  induction es using chunkBatches.induct with
  | case1 => rw [chunkBatches_nil]; simp
  | case2 a rest ih =>
    rw [chunkBatches_cons]
    simp only [List.length_cons, ih, List.length_drop]
    omega

theorem chunkBatches_eq_nil_iff (es : List α) : chunkBatches es = [] ↔ es = [] := by
  cases es with
  | nil => rw [chunkBatches_nil]; simp
  | cons a rest => rw [chunkBatches_cons]; simp

theorem chunkBatches_dropLast_sizes (es : List α) :
    ∀ b ∈ (chunkBatches es).dropLast, b.length = 10 := by
  induction es using chunkBatches.induct with
  | case1 => intro b hb; rw [chunkBatches_nil] at hb; simp at hb
  | case2 a rest ih =>
    intro b hb
    rw [chunkBatches_cons] at hb
    by_cases hd : (a :: rest).drop 10 = []
    · rw [hd, chunkBatches_nil] at hb
      simp at hb
    · have hne : chunkBatches ((a :: rest).drop 10) ≠ [] := by
        intro hcon
        exact hd ((chunkBatches_eq_nil_iff _).mp hcon)
      rw [List.dropLast_cons_of_ne_nil hne] at hb
      rcases List.mem_cons.mp hb with hb1 | hb2
      · subst hb1
        have hlen : 10 < (a :: rest).length := by
          have hld := List.length_drop 10 (a :: rest)
          rcases Nat.lt_or_ge ((a :: rest).length) 11 with hlt | hge
          · exfalso
            apply hd
            apply List.eq_nil_of_length_eq_zero
            omega
          · omega
        rw [List.length_take]
        omega
      · exact ih b hb2

theorem chunkBatches_getLast?_size (es : List α) :
    ∀ b, (chunkBatches es).getLast? = some b →
      b.length = if es.length % 10 = 0 then 10 else es.length % 10 := by
  induction es using chunkBatches.induct with
  | case1 => intro b hb; rw [chunkBatches_nil] at hb; cases hb
  | case2 a rest ih =>
    intro b hb
    rw [chunkBatches_cons] at hb
    by_cases hd : (a :: rest).drop 10 = []
    · have hlen : (a :: rest).length ≤ 10 := by
        have hld := List.length_drop 10 (a :: rest)
        have h0 : ((a :: rest).drop 10).length = 0 := by rw [hd]; rfl
        omega
      rw [hd, chunkBatches_nil] at hb
      have hone : ([(a :: rest).take 10] : List (List α)).getLast? = some ((a :: rest).take 10) := by
        simp
      rw [hone] at hb
      injection hb with hb
      subst hb
      rw [List.length_take]
      have hpos : 0 < (a :: rest).length := by simp
      rcases Nat.lt_or_ge ((a :: rest).length) 10 with hlt | hge
      · rw [if_neg (by omega)]
        omega
      · have h10 : (a :: rest).length = 10 := by omega
        rw [h10]
        simp
    · have hne : chunkBatches ((a :: rest).drop 10) ≠ [] := by
        intro hcon
        exact hd ((chunkBatches_eq_nil_iff _).mp hcon)
      have hstep : ((a :: rest).take 10 :: chunkBatches ((a :: rest).drop 10)).getLast?
          = (chunkBatches ((a :: rest).drop 10)).getLast? := by
        rcases List.exists_cons_of_ne_nil hne with ⟨t, ts, hts⟩
        rw [hts, List.getLast?_cons_cons]
      rw [hstep] at hb
      have hlen : 10 < (a :: rest).length ∨ (a :: rest).length = 10 := by
        have hld := List.length_drop 10 (a :: rest)
        rcases Nat.lt_or_ge ((a :: rest).length) 11 with hlt | hge
        · exfalso
          apply hd
          apply List.eq_nil_of_length_eq_zero
          omega
        · left; omega
      have hih := ih b hb
      rw [List.length_drop] at hih
      rcases hlen with hgt | heq
      · have hmod : ((a :: rest).length - 10) % 10 = (a :: rest).length % 10 := by
          omega
        rw [hmod] at hih
        exact hih
      · exfalso
        apply hd
        apply List.eq_nil_of_length_eq_zero
        rw [List.length_drop, heq]

theorem ingestRun_eq_chunkLoop (pb : Nat → List α → Except ε β) (es : List α) :
    ∀ bi, ingestRun pb bi es = chunkLoop pb bi (chunkBatches es) := by
  induction es using chunkBatches.induct with
  | case1 => intro bi; rw [ingestRun_nil, chunkBatches_nil]; rfl
  | case2 a rest ih =>
    intro bi
    rw [ingestRun_cons, chunkBatches_cons]
    simp only [chunkLoop]
    cases pb bi ((a :: rest).take 10) with
    | error e => rfl
    | ok y => rw [ih (bi + 1)]

theorem chunkLoop_all_ok (pb : Nat → List α → Except ε β) (f : Nat → List α → β)
    (hok : ∀ i b, pb i b = .ok (f i b)) :
    ∀ (bs : List (List α)) (bi : Nat),
      chunkLoop pb bi bs = (mapWithIndex f bi bs, none) := by
  intro bs
  induction bs with
  | nil => intro bi; rfl
  | cons b bs ih =>
    intro bi
    simp only [chunkLoop, hok bi b, ih (bi + 1), mapWithIndex]

theorem chunkLoop_first_fail (pb : Nat → List α → Except ε β) (f : Nat → List α → β)
    (k : Nat) (e : ε)
    (hok : ∀ i b, i < k → pb i b = .ok (f i b))
    (hfail : ∀ b, pb k b = .error e) :
    ∀ (bs : List (List α)) (bi : Nat), bi ≤ k → k - bi < bs.length →
      chunkLoop pb bi bs = (mapWithIndex f bi (bs.take (k - bi)), some (k, e)) := by
  intro bs
  induction bs with
  | nil => intro bi _ hlt; simp at hlt
  | cons b bs ih =>
    intro bi hle hlt
    rcases Nat.eq_or_lt_of_le hle with heq | hlt2
    · subst heq
      simp only [chunkLoop, hfail b, Nat.sub_self, List.take_zero, mapWithIndex]
    · have hstep : k - bi = (k - (bi + 1)) + 1 := by omega
      simp only [chunkLoop, hok bi b hlt2]
      rw [ih (bi + 1) (by omega) (by simp only [List.length_cons] at hlt; omega)]
      rw [hstep, List.take_succ_cons]
      simp only [mapWithIndex]

/-- C3: ingestion partitions the `N` parsed entries, in order, into exactly
`(N+9)/10 = ⌈N/10⌉` consecutive batches whose concatenation is the input;
every batch before the last has exactly 10 entries, and the last (present
whenever `N > 0`) has `N mod 10` entries when `N` is not a multiple of 10
(10 otherwise); the run is the strictly-in-order per-batch loop; when every
batch call succeeds the run performs exactly one per-batch call (one upsert)
per batch, in order, carrying that batch; and when every batch before `k`
succeeds but batch `k` fails, the run stops after the first `k` batches and
reports failing batch index `k`. -/
theorem c3_ingest_batching (es : List α) (pb : Nat → List α → Except ε β) :
    (chunkBatches es).flatten = es
    ∧ (chunkBatches es).length = (es.length + 9) / 10
    ∧ (∀ b ∈ (chunkBatches es).dropLast, b.length = 10)
    ∧ (∀ b, (chunkBatches es).getLast? = some b →
        b.length = if es.length % 10 = 0 then 10 else es.length % 10)
    ∧ (es ≠ [] → ((chunkBatches es).getLast?).isSome = true)
    ∧ ingestRun pb 0 es = chunkLoop pb 0 (chunkBatches es)
    ∧ (∀ f : Nat → List α → β, (∀ i b, pb i b = .ok (f i b)) →
        ingestRun pb 0 es = (mapWithIndex f 0 (chunkBatches es), none))
    ∧ (∀ (f : Nat → List α → β) (k : Nat) (e : ε),
        (∀ i b, i < k → pb i b = .ok (f i b)) →
        (∀ b, pb k b = .error e) →
        k < (chunkBatches es).length →
        ingestRun pb 0 es = (mapWithIndex f 0 ((chunkBatches es).take k), some (k, e))) := by
  refine ⟨chunkBatches_flatten es, chunkBatches_length es, chunkBatches_dropLast_sizes es,
    chunkBatches_getLast?_size es, ?_, ingestRun_eq_chunkLoop pb es 0, ?_, ?_⟩
  · intro hne
    have h1 : chunkBatches es ≠ [] := fun hcon => hne ((chunkBatches_eq_nil_iff es).mp hcon)
    rw [List.getLast?_eq_getLast_of_ne_nil h1]
    rfl
  · intro f hok
    rw [ingestRun_eq_chunkLoop pb es 0, chunkLoop_all_ok pb f hok (chunkBatches es) 0]
  · intro f k e hok hfail hk
    rw [ingestRun_eq_chunkLoop pb es 0,
      chunkLoop_first_fail pb f k e hok hfail (chunkBatches es) 0 (Nat.zero_le k) (by omega),
      Nat.sub_zero]

/-- The 12-entry input of the C3 witness. -/
def es12 : List Nat := [0, 1, 2, 3, 4, 5, 6, 7, 8, 9, 10, 11]

theorem chunkBatches_es12 :
    chunkBatches es12 = [[0, 1, 2, 3, 4, 5, 6, 7, 8, 9], [10, 11]] := by
  rw [show es12 = 0 :: [1, 2, 3, 4, 5, 6, 7, 8, 9, 10, 11] from rfl, chunkBatches_cons]
  rw [show (0 :: [1, 2, 3, 4, 5, 6, 7, 8, 9, 10, 11] : List Nat).drop 10 = 10 :: [11] from rfl,
    chunkBatches_cons]
  rw [show (10 :: [11] : List Nat).drop 10 = [] from rfl, chunkBatches_nil]
  rfl

/-- Witness for C3 at a concrete run: 12 entries split into batches of 10 and
2 (two batches = ceil(12/10)); with a per-batch effect that fails exactly on
batch index 1, the run performs only batch 0 and aborts reporting batch 1. -/
theorem c3_ingest_batching_witness :
    chunkBatches es12 = [[0, 1, 2, 3, 4, 5, 6, 7, 8, 9], [10, 11]]
    ∧ ingestRun
        (fun i b => if i = 0 then (.ok b.length : Except String Nat) else .error "upsert failed")
        0 es12
      = ([10], some (1, "upsert failed")) := by
  constructor
  · exact chunkBatches_es12
  · have h := (c3_ingest_batching es12
      (fun i b => if i = 0 then (.ok b.length : Except String Nat) else .error "upsert failed")
      ).2.2.2.2.2.2.2
      (fun _ b => b.length) 1 "upsert failed"
      (fun i b hi => by
        have h0 : i = 0 := by omega
        subst h0
        simp)
      (fun b => by simp)
      (by rw [chunkBatches_es12]; decide)
    rw [h, chunkBatches_es12]
    rfl

/-! ### C4 -/

/-- C4: `EnsureCollection`'s decision structure: a 200 check means done with
no create; a 404 check triggers a create, and so does any other status (the
defensive path), with the create request carrying the fixed "Cosine" distance
and the configured vector dimension; a create answering 200 or 409 (already
exists) is success and any other create status is an error; and, against the
one-collection store model, running `EnsureCollection` twice in a row
succeeds both times and leaves exactly one collection existing. -/
theorem c4_ensureCollection_idempotent :
    (∀ create, ensureCollection (.status 200) create = .ok ())
    ∧ (∀ create, ensureCollection (.status 404) create = createCollection create)
    ∧ (∀ c create, c ≠ 200 → ensureCollection (.status c) create = createCollection create)
    ∧ (∀ vectorSize, mkCreateReq vectorSize = { size := vectorSize, distance := "Cosine" })
    ∧ createCollection (.status 200) = .ok ()
    ∧ createCollection (.status 409) = .ok ()
    ∧ (∀ c, c ≠ 200 → c ≠ 409 →
        createCollection (.status c) = .error "create collection failed")
    ∧ (∀ exl, (ensureRun exl).1 = .ok ()
        ∧ (ensureRun exl).2 = true
        ∧ (ensureRun (ensureRun exl).2).1 = .ok ()) := by
  refine ⟨fun create => rfl, fun create => rfl, ?_, fun vectorSize => rfl, rfl, rfl, ?_, ?_⟩
  · intro c create hc
    rw [ensureCollection, if_neg hc]
  · intro c hc1 hc2
    rw [createCollection, if_neg]
    intro hor
    rcases hor with h | h
    · exact hc1 h
    · exact hc2 h
  · intro exl
    cases exl with
    | false => exact ⟨rfl, rfl, rfl⟩
    | true => exact ⟨rfl, rfl, rfl⟩

/-- Witness for C4 at concrete inputs: a 500 check still leads to the create
path; a 500 create is a provisioning error; and on a store with no collection
yet, ensure-then-ensure succeeds twice. -/
theorem c4_ensureCollection_idempotent_witness :
    ensureCollection (.status 500) (.status 409) = createCollection (.status 409)
    ∧ createCollection (.status 500) = .error "create collection failed"
    ∧ (ensureRun false).1 = .ok ()
    ∧ (ensureRun (ensureRun false).2).1 = .ok () :=
  ⟨c4_ensureCollection_idempotent.2.2.1 500 (.status 409) (by decide),
   c4_ensureCollection_idempotent.2.2.2.2.2.2.1 500 (by decide) (by decide),
   (c4_ensureCollection_idempotent.2.2.2.2.2.2.2 false).1,
   (c4_ensureCollection_idempotent.2.2.2.2.2.2.2 false).2.2⟩

/-! ### C2 -/

theorem buildContextAux_spec (results : List SearchResult) :
    ∀ i, buildContextAux i results
      = ((results.enumFrom i).filterMap (fun p => docSection p.1 p.2)).foldr (· ++ ·) "" := by
  induction results with
  | nil => intro i; rfl
  | cons r rest ih =>
    intro i
    rw [show List.enumFrom i (r :: rest) = (i, r) :: List.enumFrom (i + 1) rest from rfl]
    rw [List.filterMap_cons]
    cases htext : r.payload.getStr "text" with
    | none =>
      have hd : docSection i r = none := by rw [docSection, htext]; rfl
      rw [hd]
      simp only [buildContextAux, htext]
      exact ih (i + 1)
    | some text =>
      have hd : docSection i r = some (docHeader (i + 1) r.score ++ text ++ "\n\n") := by
        rw [docSection, htext]; rfl
      rw [hd]
      simp only [buildContextAux, htext, List.foldr_cons]
      rw [ih (i + 1)]

/-- C2: the context block is exactly the concatenation, in rank order, of one
labelled section (the "--- Document i (score: s.ss) ---" header plus the
stored text plus a blank line) per result whose payload has a string-valued
"text" field — results lacking stored text contribute nothing — while the
sources list has exactly one entry per retrieved result, in rank order, each
built from that result. -/
theorem c2_context_and_sources (results : List SearchResult) :
    buildContext results
      = ((results.enumFrom 0).filterMap (fun p => docSection p.1 p.2)).foldr (· ++ ·) ""
    ∧ buildSources results = results.map sourceOfResult
    ∧ (buildSources results).length = results.length
    ∧ (∀ j (hj : j < results.length) (hj' : j < (buildSources results).length),
        (buildSources results).get ⟨j, hj'⟩ = sourceOfResult (results.get ⟨j, hj⟩)) := by
  refine ⟨buildContextAux_spec results 0, rfl, by simp [buildSources], ?_⟩
  intro j hj hj'
  simp [buildSources]

/-- The C2 witness fixture: three ranked results where the second lacks a
stored text field. -/
def rs3 : List SearchResult :=
  [{ id := "a", score := 95, payload := [("id", .str "a"), ("text", .str "TA")] },
   { id := "b", score := 80, payload := [("id", .str "b")] },
   { id := "c", score := 75, payload := [("text", .str "TC")] }]

/-- Witness for C2 on `rs3` (its middle result has no stored text): the
context block is the concatenation of the sections of results 1 and 3 only,
and the sources list still carries an entry for the text-less result 2. -/
theorem c2_context_and_sources_witness :
    buildContext rs3
      = ((rs3.enumFrom 0).filterMap (fun p => docSection p.1 p.2)).foldr (· ++ ·) ""
    ∧ (buildSources rs3).get ⟨1, by decide⟩ = sourceOfResult (rs3.get ⟨1, by decide⟩) :=
  ⟨(c2_context_and_sources rs3).1,
   (c2_context_and_sources rs3).2.2.2 1 (by decide) (by decide)⟩

/-! ### C9 -/

/-- C9: the synchronous query's sources list reads only the payload: a result
whose payload lacks a string-valued "id", "module" or "topic" yields the
empty string for that field (Go's silent zero-value type assertion), even
though `Client.Search`'s recovered `SearchResult.id` falls back to the raw
numeric id — that fallback never reaches the sources list, whose entries are
unchanged under any raw id. -/
theorem c9_sources_zero_value_defaults (rawId : String) (score : Int) (p : Payload) :
    (p.getStr "id" = none →
      (sourceOfResult (mkSearchResult rawId score p)).id = ""
      ∧ (mkSearchResult rawId score p).id = rawId)
    ∧ (p.getStr "module" = none →
        (sourceOfResult (mkSearchResult rawId score p)).module = "")
    ∧ (p.getStr "topic" = none →
        (sourceOfResult (mkSearchResult rawId score p)).topic = "")
    ∧ (∀ rawId2, sourceOfResult (mkSearchResult rawId score p)
        = sourceOfResult (mkSearchResult rawId2 score p)) := by
  refine ⟨?_, ?_, ?_, fun rawId2 => rfl⟩
  · intro h
    constructor
    · simp [sourceOfResult, mkSearchResult, h]
    · simp [mkSearchResult, h]
  · intro h
    simp [sourceOfResult, mkSearchResult, h]
  · intro h
    simp [sourceOfResult, mkSearchResult, h]

/-- Witness for C9: a payload holding only a "module" string gives a source
with empty id, while the search result itself recovered the raw numeric id
"12345". -/
theorem c9_sources_zero_value_defaults_witness :
    (sourceOfResult (mkSearchResult "12345" 50 [("module", .str "m")])).id = ""
    ∧ (mkSearchResult "12345" 50 [("module", .str "m")]).id = "12345" :=
  (c9_sources_zero_value_defaults "12345" 50 [("module", .str "m")]).1 (by decide)

/-! ### C10 -/

/-- C10: a query whose vector search returns zero results does not fail on
that account: the context block is empty, the generator is still invoked on
the fixed two-message prompt (the system instruction and the user message
embedding the empty context and the query), and the result — whenever the
generator answers with at least one choice — carries an empty sources list. -/
theorem c10_zero_results_query (embed : String → Except String Vec)
    (search : Vec → Except String (List SearchResult))
    (llm : List Message → Except String ChatResponse)
    (q : String) (v : Vec)
    (h1 : embed q = .ok v) (h2 : search v = .ok []) :
    buildContext ([] : List SearchResult) = ""
    ∧ runQuery embed search llm q =
        (match llm (queryMessages "" q) with
         | .error e => .error ("llm completion: " ++ e)
         | .ok resp =>
           match resp.choices with
           | [] => .error "no response from LLM"
           | c :: _ => .ok { answer := c.message.content, sources := [] }) := by
  refine ⟨rfl, ?_⟩
  simp only [runQuery, h1, h2]
  have hctx : buildContext ([] : List SearchResult) = "" := rfl
  rw [hctx]
  cases hl : llm (queryMessages "" q) with
  | error e => rfl
  | ok resp =>
    obtain ⟨choices⟩ := resp
    cases choices with
    | nil => rfl
    | cons c cs => rfl

/-- Witness for C10 with concrete oracles: the embedder returns `[1]`, the
search returns no results, the generator answers "ans"; the query succeeds
with answer "ans" and no sources. -/
theorem c10_zero_results_query_witness :
    runQuery (fun _ => .ok [1]) (fun _ => .ok [])
      (fun _ => .ok { choices :=
        [{ message := { role := "assistant", content := "ans" }, finishReason := "stop" }] })
      "hi"
    = .ok { answer := "ans", sources := [] } := by
  have h := c10_zero_results_query (fun _ => .ok [1]) (fun _ => .ok [])
    (fun _ => .ok { choices :=
      [{ message := { role := "assistant", content := "ans" }, finishReason := "stop" }] })
    "hi" [1] rfl rfl
  rw [h.2]

/-! ### C7 -/

theorem foldl_skip_empty (l : List DeltaChoice) :
    ∀ acc, l.foldl (fun acc c => if c.content ≠ "" then acc ++ c.content else acc) acc
      = l.foldl (fun acc c => acc ++ c.content) acc := by
  induction l with
  | nil => intro acc; rfl
  | cons c cs ih =>
    intro acc
    simp only [List.foldl_cons]
    by_cases hc : c.content = ""
    · rw [if_neg (by simp [hc]), ih acc, hc, String.append_empty]
    · rw [if_pos hc, ih (acc ++ c.content)]

theorem chunkWrites_join (d : StreamDelta) :
    chunkWrites d = String.join (d.choices.map (fun c => c.content)) := by
  rw [chunkWrites, foldl_skip_empty, String.join, List.foldl_map]

/-- C7: the streaming loop writes each parsed chunk's non-empty fragments to
the sink in arrival order (a chunk contributes the in-order concatenation of
its fragments), stops emitting at the "[DONE]" sentinel or at end of
connection, skips lines without the "data: " prefix, and skips a malformed
(unparseable) data line without terminating the stream or erroring. -/
theorem c7_streaming (parse : Line → Option StreamDelta) :
    streamLoop parse [] = ""
    ∧ (∀ line rest, ¬ (dataLinePrefix.isPrefixOf line = true) →
        streamLoop parse (line :: rest) = streamLoop parse rest)
    ∧ (∀ line rest, dataLinePrefix.isPrefixOf line = true → line.drop 6 = doneSentinel →
        streamLoop parse (line :: rest) = "")
    ∧ (∀ line rest, dataLinePrefix.isPrefixOf line = true → line.drop 6 ≠ doneSentinel →
        parse (line.drop 6) = none →
        streamLoop parse (line :: rest) = streamLoop parse rest)
    ∧ (∀ line rest d, dataLinePrefix.isPrefixOf line = true → line.drop 6 ≠ doneSentinel →
        parse (line.drop 6) = some d →
        streamLoop parse (line :: rest) = chunkWrites d ++ streamLoop parse rest)
    ∧ (∀ d, chunkWrites d = String.join (d.choices.map (fun c => c.content))) := by
  refine ⟨rfl, ?_, ?_, ?_, ?_, chunkWrites_join⟩
  · intro line rest h
    simp only [streamLoop]
    rw [if_neg h]
  · intro line rest h h2
    simp only [streamLoop]
    rw [if_pos h, if_pos h2]
  · intro line rest h h2 hp
    simp only [streamLoop]
    rw [if_pos h, if_neg h2, hp]
  · intro line rest d h h2 hp
    simp only [streamLoop]
    rw [if_pos h, if_neg h2, hp]

/-- The C7 witness's chunk parser: "c1" parses to a chunk with fragment
"Hel", "c2" to a chunk with fragment "lo", anything else is malformed. -/
def parseEx : Line → Option StreamDelta := fun l =>
  if l = ['c', '1'] then some { choices := [{ content := "Hel", finishReason := "" }] }
  else if l = ['c', '2'] then some { choices := [{ content := "lo", finishReason := "stop" }] }
  else none

/-- Witness for C7: a stream carrying fragments "Hel" and "lo", a non-data
line, a malformed data line, a "[DONE]" sentinel and a trailing chunk yields
exactly "Hello" — the fragments concatenated in arrival order, the malformed
line skipped, and nothing after the sentinel emitted. -/
theorem c7_streaming_witness :
    streamLoop parseEx
      [['d','a','t','a',':',' ','c','1'],
       ['x'],
       ['d','a','t','a',':',' ','z','z'],
       ['d','a','t','a',':',' ','c','2'],
       ['d','a','t','a',':',' ','[','D','O','N','E',']'],
       ['d','a','t','a',':',' ','c','1']]
    = "Hello" := by
  have h := c7_streaming parseEx
  rw [h.2.2.2.2.1 ['d','a','t','a',':',' ','c','1'] _
      { choices := [{ content := "Hel", finishReason := "" }] }
      (by decide) (by decide) (by decide)]
  rw [h.2.1 ['x'] _ (by decide)]
  rw [h.2.2.2.1 ['d','a','t','a',':',' ','z','z'] _ (by decide) (by decide) (by decide)]
  rw [h.2.2.2.2.1 ['d','a','t','a',':',' ','c','2'] _
      { choices := [{ content := "lo", finishReason := "stop" }] }
      (by decide) (by decide) (by decide)]
  rw [h.2.2.1 ['d','a','t','a',':',' ','[','D','O','N','E',']'] _ (by decide) (by decide)]
  decide
